import Mathlib

/-!
Verification of the weather normalizer and severe-day classifier of
src/app.py (weather-aware crop-advisor app).

The embedding covers the two pure helpers of the file:

* filter_data (src/app.py lines 78-86): iterate the forecast entries,
  key each entry by the Python slice of its timestamp dropping the last
  nine characters, keep the first entry per key.
* the classification loop of check_weather_forecast (src/app.py lines
  107-127): an entry is severe when the rain amount is at least 1.6, or
  the wind speed is at least 20, or the temperature in Celsius is at
  least 35 or at most 0, with the rain amount defaulting to 0 when the
  rain field is absent and Celsius obtained as Kelvin minus 273.15; the
  flagged entries are reported by their full timestamp, in order.

Numeric fields are modelled as exact rationals; every decimal literal
of the source is carried over exactly.  The Python slice dropping the
last nine characters is take (length - 9) with truncated subtraction,
which, as in Python, yields the empty string when the string has at
most nine characters.  Strings are compared and sliced by characters,
matching Python string semantics.
-/

namespace WeatherApp

/-- A forecast entry as consumed by filter_data and the classifier:
dt_txt is the timestamp string, rain_3h models the optional nested
rain/3h field (absent means none), wind_speed is the wind/speed field
and main_temp is the main/temp field (Kelvin). -/
structure Entry where
  dt_txt : String
  rain_3h : Option ℚ
  wind_speed : ℚ
  main_temp : ℚ
  deriving DecidableEq, Repr

/-- The Python slice of src/app.py line 82 dropping the final nine
characters of the timestamp (truncated subtraction makes this the
empty string when the timestamp has at most nine characters, exactly
as in Python). -/
def dayKey (s : String) : String := s.take (s.length - 9)

/-- The day key of an entry, as computed at src/app.py line 82. -/
def entryKey (e : Entry) : String := dayKey e.dt_txt

/-- The loop of filter_data, with the unique_dates set made explicit
as the list of already-seen keys. -/
def filterDataAux (seen : List String) : List Entry → List Entry
  | [] => []
  | e :: rest =>
    if entryKey e ∈ seen then
      filterDataAux seen rest
    else
      e :: filterDataAux (entryKey e :: seen) rest

/-- filter_data (src/app.py lines 78-86): keep the first entry for
each distinct day key, in input order. -/
def filter_data (data : List Entry) : List Entry := filterDataAux [] data

/-- Rain threshold, src/app.py line 107 (1.6). -/
def rain_threshold : ℚ := 16/10

/-- Wind threshold, src/app.py line 108. -/
def wind_threshold : ℚ := 20

/-- High-temperature threshold in Celsius, src/app.py line 109. -/
def high_temp : ℚ := 35

/-- Low-temperature threshold in Celsius, src/app.py line 110. -/
def low_temp : ℚ := 0

/-- The rain amount of src/app.py line 115: a missing rain field
reads as 0. -/
def rainOf (e : Entry) : ℚ := e.rain_3h.getD 0

/-- The Celsius temperature of src/app.py line 117: Kelvin minus
273.15. -/
def tempC (e : Entry) : ℚ := e.main_temp - 27315/100

/-- The flagging condition of src/app.py lines 119-124: rain at least
the rain threshold, or wind at least the wind threshold, or Celsius
temperature at least the high or at most the low threshold. -/
def isSevere (e : Entry) : Bool :=
  decide (rain_threshold ≤ rainOf e) ||
  decide (wind_threshold ≤ e.wind_speed) ||
  decide (high_temp ≤ tempC e) ||
  decide (tempC e ≤ low_temp)

/-- The collection loop of src/app.py lines 112-125: append the full
timestamp of every severe entry, in order. -/
def worstDays : List Entry → List String
  | [] => []
  | d :: rest =>
    if isSevere d then d.dt_txt :: worstDays rest else worstDays rest

/-- The pure part of check_weather_forecast (src/app.py lines
105-127): normalize the list, then collect the flagged days. -/
def check_weather_forecast (data : List Entry) : List String :=
  worstDays (filter_data data)

/-- Modelled from the spec: the normalizer as the spec words it, with
the day key taken as the first 10 characters of the timestamp,
keeping the first entry per key in input order. -/
def specNormalizeAux (seen : List String) : List Entry → List Entry
  | [] => []
  | e :: rest =>
    if e.dt_txt.take 10 ∈ seen then
      specNormalizeAux seen rest
    else
      e :: specNormalizeAux (e.dt_txt.take 10 :: seen) rest

/-- Modelled from the spec: top-level spec-side normalizer. -/
def specNormalize (data : List Entry) : List Entry := specNormalizeAux [] data

/-- First entry of the Kelvin end-to-end scenario: day one at
midnight, 308.15 K, wind 5, no rain field. -/
def k1 : Entry := ⟨"2024-06-01 00:00:00", none, 5, 30815/100⟩

/-- Second entry of the Kelvin end-to-end scenario: day one at three
hours, 309.15 K, wind 5, no rain field. -/
def k2 : Entry := ⟨"2024-06-01 03:00:00", none, 5, 30915/100⟩

/-- Third entry of the Kelvin end-to-end scenario: day two at
midnight, 300.15 K, wind 25, no rain field. -/
def k3 : Entry := ⟨"2024-06-02 00:00:00", none, 25, 30015/100⟩

/-- A benign entry with a full-length timestamp, used as witness
input. -/
def v1 : Entry := ⟨"2024-06-01 00:00:00", none, 5, 300⟩

/-- A second benign entry on the same day as v1. -/
def v2 : Entry := ⟨"2024-06-01 03:00:00", none, 5, 300⟩

/-- A benign entry on a second day. -/
def v3 : Entry := ⟨"2024-06-02 00:00:00", none, 5, 300⟩

/-- An entry whose timestamp has fewer than 10 characters. -/
def shortEntry : Entry := ⟨"2024", none, 0, 300⟩

theorem filterDataAux_sublist : ∀ (xs : List Entry) (seen : List String),
    List.Sublist (filterDataAux seen xs) xs := by
  intro xs
  induction xs with
  | nil => intro seen; simp [filterDataAux]
  | cons a rest ih =>
    intro seen
    by_cases h : entryKey a ∈ seen
    · simp only [filterDataAux, if_pos h]
      exact (ih seen).trans (List.sublist_cons_self a rest)
    · simp only [filterDataAux, if_neg h]
      exact (ih _).cons₂ a

theorem mem_filterDataAux_not_seen : ∀ (xs : List Entry) (seen : List String)
    (e : Entry), e ∈ filterDataAux seen xs → entryKey e ∉ seen := by
  intro xs
  induction xs with
  | nil => intro seen e he; simp [filterDataAux] at he
  | cons a rest ih =>
    intro seen e he
    by_cases h : entryKey a ∈ seen
    · simp only [filterDataAux, if_pos h] at he
      exact ih seen e he
    · simp only [filterDataAux, if_neg h] at he
      rcases List.mem_cons.mp he with rfl | he2
      · exact h
      · intro hmem
        exact ih _ e he2 (List.mem_cons_of_mem _ hmem)

theorem filterDataAux_keys_nodup : ∀ (xs : List Entry) (seen : List String),
    ((filterDataAux seen xs).map entryKey).Nodup := by
  intro xs
  induction xs with
  | nil => intro seen; simp [filterDataAux]
  | cons a rest ih =>
    intro seen
    by_cases h : entryKey a ∈ seen
    · simp only [filterDataAux, if_pos h]; exact ih seen
    · simp only [filterDataAux, if_neg h, List.map_cons, List.nodup_cons]
      refine ⟨?_, ih _⟩
      intro hmem
      rcases List.mem_map.mp hmem with ⟨e, he, hkey⟩
      have hn := mem_filterDataAux_not_seen rest _ e he
      rw [hkey] at hn
      exact hn (List.mem_cons_self _ _)

theorem filterDataAux_eq_self : ∀ (xs : List Entry) (seen : List String),
    (∀ e ∈ xs, entryKey e ∉ seen) → (xs.map entryKey).Nodup →
    filterDataAux seen xs = xs := by
  intro xs
  induction xs with
  | nil => intro seen _ _; rfl
  | cons a rest ih =>
    intro seen hseen hnodup
    have ha : entryKey a ∉ seen := hseen a (List.mem_cons_self a rest)
    simp only [List.map_cons, List.nodup_cons] at hnodup
    simp only [filterDataAux, if_neg ha]
    congr 1
    apply ih
    · intro e he hc
      rcases List.mem_cons.mp hc with hc2 | hc2
      · exact hnodup.1 (hc2 ▸ List.mem_map_of_mem entryKey he)
      · exact hseen e (List.mem_cons_of_mem a he) hc2
    · exact hnodup.2

theorem worstDays_sublist (ds : List Entry) :
    List.Sublist (worstDays ds) (ds.map Entry.dt_txt) := by
  induction ds with
  | nil => simp [worstDays]
  | cons a rest ih =>
    by_cases h : isSevere a
    · simp only [worstDays, if_pos h, List.map_cons]
      exact ih.cons₂ _
    · simp only [worstDays, if_neg h, List.map_cons]
      exact ih.trans (List.sublist_cons_self _ _)

theorem dayKey_eq_take10 (s : String) (h : s.length = 19) :
    dayKey s = s.take 10 := by
  unfold dayKey
  rw [h]

theorem filterDataAux_eq_specAux : ∀ (xs : List Entry) (seen : List String),
    (∀ e ∈ xs, e.dt_txt.length = 19) →
    filterDataAux seen xs = specNormalizeAux seen xs := by
  intro xs
  induction xs with
  | nil => intro seen _; rfl
  | cons a rest ih =>
    intro seen h
    have ha : a.dt_txt.length = 19 := h a (List.mem_cons_self a rest)
    have hk : entryKey a = a.dt_txt.take 10 := dayKey_eq_take10 _ ha
    have hrest : ∀ e ∈ rest, e.dt_txt.length = 19 :=
      fun e he => h e (List.mem_cons_of_mem a he)
    simp only [filterDataAux, specNormalizeAux, hk]
    by_cases hmem : a.dt_txt.take 10 ∈ seen
    · rw [if_pos hmem, if_pos hmem]
      exact ih seen hrest
    · rw [if_neg hmem, if_neg hmem, ih _ hrest]

/-- C1: on well-formed forecast entries (19-character timestamps, the
standard YYYY-MM-DD HH:MM:SS shape, where the code's day key equals
the calendar-day prefix), filter_data returns, for each distinct
calendar-day prefix, exactly the first entry encountered in input
order, skipping later entries with the same day key and preserving
relative order — it agrees with the normalizer written directly from
the spec's algorithm — and on empty input it returns empty without
error. -/
theorem c1_normalizer_first_per_day (xs : List Entry)
    (h : ∀ e ∈ xs, e.dt_txt.length = 19) :
    filter_data xs = specNormalize xs ∧ filter_data ([] : List Entry) = [] :=
  ⟨filterDataAux_eq_specAux xs [] h, rfl⟩

/-- Witness for C1 at a concrete three-entry input with a duplicated
day. -/
theorem c1_witness :
    (∀ e ∈ [v1, v2, v3], e.dt_txt.length = 19) ∧
    (filter_data [v1, v2, v3] = specNormalize [v1, v2, v3] ∧
     filter_data ([] : List Entry) = []) :=
  ⟨by decide, c1_normalizer_first_per_day [v1, v2, v3] (by decide)⟩

/-- C2: a day is flagged if and only if at least one of the four
threshold conditions holds, each comparison inclusive (logical OR,
not cumulative scoring): rain at least 1.6, wind at least 20, Celsius
temperature at least 35, or Celsius temperature at most 0; in
particular rain exactly 1.6 with benign wind and temperature is
flagged, while rain 1.599 with all other values benign is not. -/
theorem c2_or_semantics :
    (∀ e : Entry, isSevere e = true ↔
      ((16:ℚ)/10 ≤ rainOf e ∨ (20:ℚ) ≤ e.wind_speed ∨
       (35:ℚ) ≤ tempC e ∨ tempC e ≤ (0:ℚ))) ∧
    isSevere ⟨"2024-06-01 00:00:00", some (16/10), 0, 29315/100⟩ = true ∧
    isSevere ⟨"2024-06-01 00:00:00", some (1599/1000), 0, 29315/100⟩ = false := by
  refine ⟨?_, ?_, ?_⟩
  · intro e
    simp only [isSevere, rain_threshold, wind_threshold, high_temp, low_temp,
      Bool.or_eq_true, decide_eq_true_eq]
    tauto
  · norm_num [isSevere, rainOf, tempC, rain_threshold, wind_threshold,
      high_temp, low_temp]
  · norm_num [isSevere, rainOf, tempC, rain_threshold, wind_threshold,
      high_temp, low_temp]

/-- Witness for C2: the classification equivalence instantiated at a
concrete entry. -/
theorem c2_witness :
    isSevere v1 = true ↔
      ((16:ℚ)/10 ≤ rainOf v1 ∨ (20:ℚ) ≤ v1.wind_speed ∨
       (35:ℚ) ≤ tempC v1 ∨ tempC v1 ≤ (0:ℚ)) :=
  c2_or_semantics.1 v1

/-- C3: on the concrete Kelvin scenario (two entries on day one, one
on day two), normalization keeps the midnight entry of each day,
Celsius is Kelvin minus 273.15 (308.15 K is exactly 35, triggering
heat; wind 25 is at least 20, triggering wind), and the final result
is exactly the two midnight timestamps. -/
theorem c3_end_to_end :
    check_weather_forecast [k1, k2, k3] =
      ["2024-06-01 00:00:00", "2024-06-02 00:00:00"] := by
  have hf : filter_data [k1, k2, k3] = [k1, k3] := rfl
  have h1 : isSevere k1 = true := by
    norm_num [isSevere, k1, rainOf, tempC, rain_threshold, wind_threshold,
      high_temp, low_temp]
  have h3 : isSevere k3 = true := by
    norm_num [isSevere, k3, rainOf, tempC, rain_threshold, wind_threshold,
      high_temp, low_temp]
  rw [check_weather_forecast, hf]
  simp only [worstDays, h1, h3, if_pos]
  rfl

/-- C4 counterexample: on the 10-character timestamp 2024-06-01 the
code's day key is the single character 2, not the first 10
characters, refuting the claim for timestamps of length at least 10
but different from 19. -/
theorem c4_counterexample :
    ("2024-06-01".length ≥ 10) ∧
    dayKey "2024-06-01" ≠ "2024-06-01".take 10 := by
  constructor
  · decide
  · decide

/-- C4 (amended): the day key is the timestamp with its last nine
characters removed; this equals the first 10 characters exactly for
the standard 19-character timestamps, not for arbitrary timestamps of
length at least 10. -/
theorem c4_day_key_amended (s : String) :
    dayKey s = s.take (s.length - 9) ∧
    (s.length = 19 → dayKey s = s.take 10) :=
  ⟨rfl, fun h => dayKey_eq_take10 s h⟩

/-- Witness for C4 at a concrete 19-character timestamp. -/
theorem c4_witness :
    ("2024-06-01 00:00:00".length = 19) ∧
    dayKey "2024-06-01 00:00:00" = "2024-06-01 00:00:00".take 10 :=
  ⟨by decide, (c4_day_key_amended "2024-06-01 00:00:00").2 (by decide)⟩

/-- C5: evaluation of the code at an entry whose timestamp has fewer
than 10 characters: filter_data returns normally, keeping the entry
and grouping it under the empty-string day key, instead of aborting
with a MalformedEntry error as the spec requires. -/
theorem c5_no_failure_on_short_timestamp :
    filter_data [shortEntry] = [shortEntry] ∧ entryKey shortEntry = "" :=
  ⟨rfl, rfl⟩

/-- C6: when the rain field is absent the rain amount reads as 0, the
rain condition can never fire, and flagging reduces to the wind and
temperature conditions alone — so an entry without rain whose wind
and temperature are benign is not flagged. -/
theorem c6_missing_rain (e : Entry) (h : e.rain_3h = none) :
    rainOf e = 0 ∧ ¬ ((16:ℚ)/10 ≤ rainOf e) ∧
    (isSevere e = true ↔
      ((20:ℚ) ≤ e.wind_speed ∨ (35:ℚ) ≤ tempC e ∨ tempC e ≤ (0:ℚ))) := by
  refine ⟨by simp [rainOf, h], ?_, ?_⟩
  · simp only [rainOf, h, Option.getD]
    norm_num
  · simp only [isSevere, rainOf, h, Option.getD, rain_threshold,
      wind_threshold, high_temp, low_temp, Bool.or_eq_true, decide_eq_true_eq]
    constructor
    · rintro (((h1 | h1) | h1) | h1)
      · exact absurd h1 (by norm_num)
      · exact Or.inl h1
      · exact Or.inr (Or.inl h1)
      · exact Or.inr (Or.inr h1)
    · rintro (h1 | h1 | h1)
      · exact Or.inl (Or.inl (Or.inr h1))
      · exact Or.inl (Or.inr h1)
      · exact Or.inr h1

/-- Witness for C6 at a concrete rain-free benign entry. -/
theorem c6_witness :
    (v1.rain_3h = none) ∧
    (rainOf v1 = 0 ∧ ¬ ((16:ℚ)/10 ≤ rainOf v1) ∧
     (isSevere v1 = true ↔
       ((20:ℚ) ≤ v1.wind_speed ∨ (35:ℚ) ≤ tempC v1 ∨ tempC v1 ≤ (0:ℚ)))) :=
  ⟨rfl, c6_missing_rain v1 rfl⟩

/-- C7: normalization is idempotent — applying filter_data to its own
output returns that output unchanged. -/
theorem c7_idempotent (xs : List Entry) :
    filter_data (filter_data xs) = filter_data xs := by
  unfold filter_data
  apply filterDataAux_eq_self
  · intro e _ hc
    exact List.not_mem_nil _ hc
  · exact filterDataAux_keys_nodup xs []

/-- C8: the normalizer's output is never longer than its input, and
the lengths are equal exactly when all day keys of the input are
distinct. -/
theorem c8_length_bound (xs : List Entry) :
    (filter_data xs).length ≤ xs.length ∧
    ((filter_data xs).length = xs.length ↔ (xs.map entryKey).Nodup) := by
  have hsub := filterDataAux_sublist xs []
  refine ⟨hsub.length_le, ?_, ?_⟩
  · intro hlen
    have heq : filter_data xs = xs := hsub.eq_of_length hlen
    rw [← heq]
    exact filterDataAux_keys_nodup xs []
  · intro hnodup
    have heq : filter_data xs = xs :=
      filterDataAux_eq_self xs [] (fun e _ hc => List.not_mem_nil _ hc) hnodup
    rw [heq]

/-- Witness for C8 at a concrete input. -/
theorem c8_witness :
    (filter_data [v1, v2, v3]).length ≤ [v1, v2, v3].length ∧
    ((filter_data [v1, v2, v3]).length = [v1, v2, v3].length ↔
     ([v1, v2, v3].map entryKey).Nodup) :=
  c8_length_bound [v1, v2, v3]

/-- C9: on a normalized sequence (pairwise-distinct day keys) the
classifier's flags form a sublist of the input's full timestamps —
order preserved and every flag the full timestamp of a visited day —
and any two flags belong to distinct days. -/
theorem c9_classifier_order (days : List Entry)
    (h : (days.map entryKey).Nodup) :
    List.Sublist (worstDays days) (days.map Entry.dt_txt) ∧
    (worstDays days).Pairwise (fun a b => dayKey a ≠ dayKey b) := by
  refine ⟨worstDays_sublist days, ?_⟩
  have hmm : days.map entryKey = (days.map Entry.dt_txt).map dayKey := by
    rw [List.map_map]
    rfl
  rw [hmm, List.Nodup, List.pairwise_map] at h
  exact h.sublist (worstDays_sublist days)

/-- Witness for C9 at a concrete two-day normalized input. -/
theorem c9_witness :
    (([v1, v3].map entryKey).Nodup) ∧
    (List.Sublist (worstDays [v1, v3]) ([v1, v3].map Entry.dt_txt) ∧
     (worstDays [v1, v3]).Pairwise (fun a b => dayKey a ≠ dayKey b)) :=
  ⟨by decide, c9_classifier_order [v1, v3] (by decide)⟩

/-- C10: filter_data is total on arbitrary timestamp strings and
returns a sublist of its input (entries unchanged, in order), and a
timestamp with at most nine characters is grouped under the empty
day key. -/
theorem c10_total_sublist (xs : List Entry) :
    List.Sublist (filter_data xs) xs ∧
    (∀ s : String, s.length ≤ 9 → dayKey s = "") := by
  refine ⟨filterDataAux_sublist xs [], ?_⟩
  intro s h
  unfold dayKey
  have h0 : s.length - 9 = 0 := Nat.sub_eq_zero_of_le h
  rw [h0, String.take_eq]
  rfl

/-- Witness for C10 on a one-entry input with a four-character
timestamp. -/
theorem c10_witness :
    List.Sublist (filter_data [shortEntry]) [shortEntry] ∧
    dayKey "2024" = "" :=
  ⟨(c10_total_sublist [shortEntry]).1,
   (c10_total_sublist [shortEntry]).2 "2024" (by decide)⟩

end WeatherApp
